import Mathlib

/-!
Verification of the Commission-Management-System repository.

Numbers are modelled as rationals. The Mongoose pre-save hooks, the Sequelize
reward-calculation service and the team-recommendation helpers are embedded as
pure Lean functions over explicit record states, following the JavaScript
source line by line.
-/

namespace CMS

/-- Math.round from JavaScript: round half toward positive infinity. -/
def jsRound (q : ℚ) : ℤ := ⌊q + 1/2⌋

/-! ## Commission model (models/Commission.js, MongoDB schema) -/

/-- Sub-document performanceMetrics of the Commission schema. -/
structure PerformanceMetrics where
  kpiScore : ℚ
  qualityScore : ℚ
  efficiencyScore : ℚ
  teamworkScore : ℚ
  innovationScore : ℚ
deriving Repr, DecidableEq

/-- Sub-document projectMetrics of the Commission schema. -/
structure ProjectMetrics where
  projectProgress : ℚ
  clientSatisfaction : ℚ
  deadlineAdherence : ℚ
deriving Repr, DecidableEq

/-- Sub-document aiCalculations of the Commission schema. -/
structure AiCalculations where
  performanceBonus : ℚ
  projectBonus : ℚ
  qualityBonus : ℚ
  innovationBonus : ℚ
  totalBonus : ℚ
deriving Repr, DecidableEq

/-- Sub-document manualAdjustments of the Commission schema. -/
structure ManualAdjustments where
  adjustmentAmount : ℚ
deriving Repr, DecidableEq

/-- A Commission document (the fields the pre-save hook and virtuals read). -/
structure Commission where
  role : String
  baseSalary : ℚ
  performanceMetrics : PerformanceMetrics
  projectMetrics : ProjectMetrics
  aiCalculations : AiCalculations
  manualAdjustments : ManualAdjustments
  finalAmount : ℚ
deriving Repr, DecidableEq

/-- The commissionSchema.pre('save') middleware: first assigns
finalAmount := baseSalary + aiCalculations.totalBonus + manualAdjustments.adjustmentAmount,
then assigns aiCalculations.totalBonus := performanceBonus + projectBonus +
qualityBonus + innovationBonus, in that order. -/
def Commission.preSave (c : Commission) : Commission :=
  let c1 : Commission :=
    { c with finalAmount :=
        c.baseSalary + c.aiCalculations.totalBonus + c.manualAdjustments.adjustmentAmount }
  { c1 with aiCalculations :=
      { c1.aiCalculations with totalBonus :=
          c1.aiCalculations.performanceBonus +
          c1.aiCalculations.projectBonus +
          c1.aiCalculations.qualityBonus +
          c1.aiCalculations.innovationBonus } }

/-- The totalScore virtual of the Commission schema:
kpiScore*0.3 + qualityScore*0.2 + efficiencyScore*0.2 + teamworkScore*0.15 +
innovationScore*0.15. -/
def Commission.totalScore (c : Commission) : ℚ :=
  (c.performanceMetrics.kpiScore * 0.3) +
  (c.performanceMetrics.qualityScore * 0.2) +
  (c.performanceMetrics.efficiencyScore * 0.2) +
  (c.performanceMetrics.teamworkScore * 0.15) +
  (c.performanceMetrics.innovationScore * 0.15)

/-- The spec-claimed developer scoring formula, written from the spec words:
KPI 25%, Quality 20%, Efficiency 20%, Teamwork 15%, Innovation 10%,
Progress 10% (progress read from projectMetrics.projectProgress). -/
def specDeveloperScore (c : Commission) : ℚ :=
  (c.performanceMetrics.kpiScore * 0.25) +
  (c.performanceMetrics.qualityScore * 0.20) +
  (c.performanceMetrics.efficiencyScore * 0.20) +
  (c.performanceMetrics.teamworkScore * 0.15) +
  (c.performanceMetrics.innovationScore * 0.10) +
  (c.projectMetrics.projectProgress * 0.10)

/-! ## Project model (models/Project.js, MongoDB schema) -/

/-- A milestone entry of the Project schema (field read by the hook). -/
structure Milestone where
  name : String
  isCompleted : Bool
deriving Repr, DecidableEq

/-- Sub-document progress of the Project schema. -/
structure Progress where
  planned : ℚ
  actual : ℚ
deriving Repr, DecidableEq

/-- A Project document (the fields the pre-save hook reads and writes). -/
structure Project where
  milestones : List Milestone
  progress : Progress
deriving Repr, DecidableEq

/-- The projectSchema.pre('save') middleware: when milestones is non-empty,
progress.actual := Math.round((completedMilestones / milestones.length) * 100). -/
def Project.preSave (p : Project) : Project :=
  if p.milestones.length > 0 then
    let completedMilestones := (p.milestones.filter (fun m => m.isCompleted)).length
    { p with progress :=
        { p.progress with actual :=
            ((jsRound ((completedMilestones : ℚ) / (p.milestones.length : ℚ) * 100) : ℤ) : ℚ) } }
  else p

/-! ## Admin reward service (src/services/admin.service.js, Sequelize models) -/

/-- A row of the project_members table (the field calculateReward reads). -/
structure ProjectMemberRec where
  user_id : ℕ
deriving Repr, DecidableEq

/-- A row of the projects table together with its included project_members. -/
structure ProjectRec where
  id : ℕ
  project_members : List ProjectMemberRec
deriving Repr, DecidableEq

/-- A row of the reward_calculations table. -/
structure CalculationRec where
  id : ℕ
  project_id : ℕ
  reward_policy_id : ℕ
  total_reward_pool : ℚ
  status : String
deriving Repr, DecidableEq

/-- A row of the rewards table. -/
structure RewardRec where
  calculation_id : ℕ
  user_id : ℕ
  amount : ℚ
deriving Repr, DecidableEq

/-- The database state touched by calculateReward; nextCalcId models the
auto-increment primary key of reward_calculations. -/
structure Db where
  projects : List ProjectRec
  reward_calculations : List CalculationRec
  rewards : List RewardRec
  nextCalcId : ℕ
deriving Repr, DecidableEq

/-- Request body of calculateReward: project_id, reward_policy_id,
total_reward_pool. -/
structure CalcInput where
  project_id : ℕ
  reward_policy_id : ℕ
  total_reward_pool : ℚ
deriving Repr, DecidableEq

/-- The value returned by the calculateReward service: either the object
with an error message, or the object with calculation_id and perMember. -/
inductive CalcResult where
  | error (msg : String)
  | ok (calculation_id : ℕ) (perMember : ℚ)
deriving Repr, DecidableEq

/-- The reward row the loop body of calculateReward creates for member m. -/
def rewardRowFor (calculation_id : ℕ) (perMember : ℚ) (m : ProjectMemberRec) : RewardRec :=
  { calculation_id := calculation_id, user_id := m.user_id, amount := perMember }

/-- exports.calculateReward of admin.service.js: look up the project by
primary key (with its project_members), return an error object when absent;
otherwise perMember := total_reward_pool / (members.length || 1), create one
reward_calculations row with status PRELIMINARY, then one rewards row per
member with amount perMember. -/
def calculateReward (db : Db) (data : CalcInput) : Db × CalcResult :=
  match db.projects.find? (fun p => p.id == data.project_id) with
  | none => (db, .error "Project not found")
  | some project =>
    let members := project.project_members
    let perMember := data.total_reward_pool /
      (if members.length = 0 then 1 else (members.length : ℚ))
    let calculation : CalculationRec :=
      { id := db.nextCalcId
        project_id := data.project_id
        reward_policy_id := data.reward_policy_id
        total_reward_pool := data.total_reward_pool
        status := "PRELIMINARY" }
    let db1 : Db :=
      { db with
        reward_calculations := db.reward_calculations ++ [calculation]
        nextCalcId := db.nextCalcId + 1 }
    let db2 : Db :=
      { db1 with rewards := db1.rewards ++ members.map (rewardRowFor calculation.id perMember) }
    (db2, .ok calculation.id perMember)

/-- calculateReward interrupted while creating reward rows: the lookup and
the reward_calculations insert have happened, but only the first j iterations
of the rewards loop completed before the (j+1)-th create threw. None of the
completed writes is undone, since no transaction wraps them. -/
def calculateRewardUpTo (db : Db) (data : CalcInput) (j : ℕ) : Db :=
  match db.projects.find? (fun p => p.id == data.project_id) with
  | none => db
  | some project =>
    let members := project.project_members
    let perMember := data.total_reward_pool /
      (if members.length = 0 then 1 else (members.length : ℚ))
    let calculation : CalculationRec :=
      { id := db.nextCalcId
        project_id := data.project_id
        reward_policy_id := data.reward_policy_id
        total_reward_pool := data.total_reward_pool
        status := "PRELIMINARY" }
    let db1 : Db :=
      { db with
        reward_calculations := db.reward_calculations ++ [calculation]
        nextCalcId := db.nextCalcId + 1 }
    { db1 with
      rewards := db1.rewards ++ (members.take j).map (rewardRowFor calculation.id perMember) }

/-! ## Team recommendation (server/routes/ai.js) -/

/-- An approved performance evaluation, as read by the ai.js helpers. -/
structure EvalRec where
  overallScore : ℚ
deriving Repr, DecidableEq

/-- An approved or paid bonus row, as read by the ai.js helpers. -/
structure BonusRec where
  totalBonus : ℚ
deriving Repr, DecidableEq

/-- The user sub-object of a userCapabilities entry. -/
structure UserInfo where
  id : ℕ
  department : String
  position : String
deriving Repr, DecidableEq

/-- A userCapabilities entry: the candidate record the selection strategies
and calculateTeamScore consume. -/
structure Member where
  user : UserInfo
  isAvailable : Bool
  receivedEvaluations : List EvalRec
  bonuses : List BonusRec
deriving Repr, DecidableEq

/-- The average overallScore over a member's evaluations, defaulting to 6.0
when the member has no evaluations (the expression repeated throughout
ai.js). -/
def memberScore (m : Member) : ℚ :=
  if m.receivedEvaluations.length > 0 then
    ((m.receivedEvaluations.map (fun e => e.overallScore)).sum : ℚ) /
      (m.receivedEvaluations.length : ℚ)
  else 6

/-- The average totalBonus over a member's bonuses, defaulting to 0 when the
member has no bonuses. -/
def memberBonus (m : Member) : ℚ :=
  if m.bonuses.length > 0 then
    ((m.bonuses.map (fun b => b.totalBonus)).sum : ℚ) / (m.bonuses.length : ℚ)
  else 0

/-- Array.prototype.sort with comparator (a, b) => key b - key a: a sort of
the list into descending key order. -/
def sortDesc {α : Type} (key : α → ℚ) (l : List α) : List α :=
  l.insertionSort (fun a b => key b ≤ key a)

/-- selectHighPerformanceTeam of ai.js: keep available candidates, sort them
by descending average overallScore (default 6.0), take the first teamSize. -/
def selectHighPerformanceTeam (userCapabilities : List Member) (teamSize : ℕ) : List Member :=
  ((userCapabilities.filter (fun u => u.isAvailable)).insertionSort
    (fun a b => memberScore b ≤ memberScore a)).take teamSize

/-- calculateDiversityScore of ai.js:
(distinct departments / team size) * 0.6 + (distinct positions / team size) * 0.4,
and 0 for the empty team. -/
def calculateDiversityScore (team : List Member) : ℚ :=
  if team.length = 0 then 0
  else
    let departments := (team.map (fun m => m.user.department)).dedup
    let positions := (team.map (fun m => m.user.position)).dedup
    ((departments.length : ℚ) / (team.length : ℚ)) * 0.6 +
      ((positions.length : ℚ) / (team.length : ℚ)) * 0.4

/-- calculateTeamScore of ai.js:
avgPerformance * 0.5 + avgBonus * 0.3 + diversityScore * 0.2, where
avgPerformance averages each member's average overallScore (default 6.0),
avgBonus averages each member's average totalBonus (default 0), and the
empty team scores 0. -/
def calculateTeamScore (team : List Member) : ℚ :=
  if team.length = 0 then 0
  else
    let avgPerformance := ((team.map memberScore).sum : ℚ) / (team.length : ℚ)
    let avgBonus := ((team.map memberBonus).sum : ℚ) / (team.length : ℚ)
    let diversityScore := calculateDiversityScore team
    avgPerformance * 0.5 + avgBonus * 0.3 + diversityScore * 0.2

/-- One entry pushed onto teamRecommendations in the route handler. -/
structure StratEntry where
  strategy : String
  team : List Member
  score : ℚ
deriving Repr, DecidableEq

/-- The three entries the handler pushes onto teamRecommendations, each
scored with calculateTeamScore, in push order. -/
def strategyEntries (balancedTeam highPerformanceTeam costEffectiveTeam :
    List Member) : List StratEntry :=
  [ { strategy := "balanced", team := balancedTeam,
      score := calculateTeamScore balancedTeam },
    { strategy := "high_performance", team := highPerformanceTeam,
      score := calculateTeamScore highPerformanceTeam },
    { strategy := "cost_effective", team := costEffectiveTeam,
      score := calculateTeamScore costEffectiveTeam } ]

/-- The teamRecommendations list of the POST /api/ai/team-recommendation
handler: the three strategy entries sorted by descending score. -/
def teamRecommendations (balancedTeam highPerformanceTeam costEffectiveTeam :
    List Member) : List StratEntry :=
  sortDesc (fun e => e.score)
    (strategyEntries balancedTeam highPerformanceTeam costEffectiveTeam)

/-- recommendedTeam of the handler: teamRecommendations[0]. -/
def recommendedTeam (balancedTeam highPerformanceTeam costEffectiveTeam :
    List Member) : Option StratEntry :=
  (teamRecommendations balancedTeam highPerformanceTeam costEffectiveTeam).head?

/-- exports.calculateReward of admin.controller.js: awaits the service and
passes its result to res.json with no explicit status, so a normal return is
delivered with HTTP status 200; only a thrown error yields 500. -/
def handleCalculateReward (db : Db) (data : CalcInput) : Db × ℕ × CalcResult :=
  let r := calculateReward db data
  (r.1, 200, r.2)

/-! ## Theorems -/

/-- A commission whose stored totalBonus (0) disagrees with the sum of its
bonus components (100): the input exhibiting the pre-save ordering slip. -/
def staleCommission : Commission :=
  { role := "developer"
    baseSalary := 1000
    performanceMetrics := ⟨0, 0, 0, 0, 0⟩
    projectMetrics := ⟨0, 0, 0⟩
    aiCalculations := ⟨100, 0, 0, 0, 0⟩
    manualAdjustments := ⟨0⟩
    finalAmount := 0 }

/-- C1: the pre-save hook assigns finalAmount before it recomputes
totalBonus, so finalAmount is based on the stale totalBonus. On a commission
with baseSalary 1000, stored totalBonus 0, performanceBonus 100 and no
adjustment, the save stores totalBonus = 100 but finalAmount = 1000, not
1100 = baseSalary + stored totalBonus + adjustmentAmount: the claimed
invariant fails on the code. -/
theorem preSave_finalAmount_uses_stale_totalBonus :
    (Commission.preSave staleCommission).finalAmount = 1000 ∧
    (Commission.preSave staleCommission).aiCalculations.totalBonus = 100 ∧
    (Commission.preSave staleCommission).finalAmount ≠
      (Commission.preSave staleCommission).baseSalary +
      (Commission.preSave staleCommission).aiCalculations.totalBonus +
      (Commission.preSave staleCommission).manualAdjustments.adjustmentAmount := by
  refine ⟨?_, ?_, ?_⟩ <;> norm_num [Commission.preSave, staleCommission]

/-- C3: every save recomputes aiCalculations.totalBonus as
performanceBonus + projectBonus + qualityBonus + innovationBonus, and the
stored value is independent of the totalBonus the document carried before
the save. -/
theorem preSave_totalBonus_recomputed (c : Commission) (t : ℚ) :
    (Commission.preSave c).aiCalculations.totalBonus =
      c.aiCalculations.performanceBonus + c.aiCalculations.projectBonus +
      c.aiCalculations.qualityBonus + c.aiCalculations.innovationBonus ∧
    (Commission.preSave
        { c with aiCalculations := { c.aiCalculations with totalBonus := t } }
      ).aiCalculations.totalBonus =
      (Commission.preSave c).aiCalculations.totalBonus :=
  ⟨rfl, rfl⟩

/-- A commission with role developer whose kpiScore is 100 and every other
component score 0: the totalScore virtual yields 30, the spec's claimed
developer weight table yields 25. -/
def developerCommission : Commission :=
  { role := "developer"
    baseSalary := 0
    performanceMetrics := ⟨100, 0, 0, 0, 0⟩
    projectMetrics := ⟨0, 0, 0⟩
    aiCalculations := ⟨0, 0, 0, 0, 0⟩
    manualAdjustments := ⟨0⟩
    finalAmount := 0 }

/-- C4 counterexample: for a developer commission with kpiScore 100 and all
other component scores 0, the code's totalScore virtual gives 30 (weight
0.30 on KPI) while the claimed weight table (KPI 25%, Quality 20%,
Efficiency 20%, Teamwork 15%, Innovation 10%, Progress 10%) gives 25. -/
theorem totalScore_developer_weights_counterexample :
    developerCommission.role = "developer" ∧
    Commission.totalScore developerCommission = 30 ∧
    specDeveloperScore developerCommission = 25 ∧
    Commission.totalScore developerCommission ≠ specDeveloperScore developerCommission := by
  refine ⟨rfl, by norm_num [Commission.totalScore, developerCommission], ?_, ?_⟩
  · norm_num [specDeveloperScore, developerCommission]
  · norm_num [Commission.totalScore, specDeveloperScore, developerCommission]

/-- C4 amended: the overall performance score of a commission is computed by
the totalScore virtual with the role-independent weights KPI 30%, Quality
20%, Efficiency 20%, Teamwork 15%, Innovation 15%, and no progress
component. -/
theorem totalScore_fixed_weights (c : Commission) :
    Commission.totalScore c =
      (30 * c.performanceMetrics.kpiScore +
       20 * c.performanceMetrics.qualityScore +
       20 * c.performanceMetrics.efficiencyScore +
       15 * c.performanceMetrics.teamworkScore +
       15 * c.performanceMetrics.innovationScore) / 100 := by
  unfold Commission.totalScore
  norm_num
  ring

/-- C6: for a project with at least one milestone, the pre-save hook stores
progress.actual = round(100 * completed milestones / total milestones),
with JavaScript Math.round semantics. -/
theorem preSave_progress_from_milestones (p : Project) (h : p.milestones ≠ []) :
    (Project.preSave p).progress.actual =
      ((jsRound (100 * ((p.milestones.filter (fun m => m.isCompleted)).length : ℚ) /
        (p.milestones.length : ℚ)) : ℤ) : ℚ) := by
  have hlen : p.milestones.length > 0 := List.length_pos.mpr h
  unfold Project.preSave
  rw [if_pos hlen]
  ring_nf

/-- A project with three milestones, two of them completed. -/
def c6Project : Project :=
  { milestones := [⟨"design", true⟩, ⟨"build", true⟩, ⟨"ship", false⟩]
    progress := ⟨0, 0⟩ }

/-- C6 witness: saving a project with 2 of 3 milestones completed stores
progress.actual = round(200/3) = 67. -/
theorem preSave_progress_from_milestones_witness :
    c6Project.milestones ≠ [] ∧
    (Project.preSave c6Project).progress.actual = 67 := by
  refine ⟨by simp [c6Project], ?_⟩
  rw [preSave_progress_from_milestones c6Project (by simp [c6Project])]
  have h2 : (c6Project.milestones.filter (fun m => m.isCompleted)).length = 2 := rfl
  have h3 : c6Project.milestones.length = 3 := rfl
  rw [h2, h3]
  have hj : jsRound (100 * ((2 : ℕ) : ℚ) / ((3 : ℕ) : ℚ)) = 67 := by
    unfold jsRound
    rw [Int.floor_eq_iff]
    constructor <;> norm_num
  rw [hj]
  norm_num

/-- Summing a constant function over a list gives length times the constant. -/
theorem sum_map_const_rat {α : Type} (l : List α) (c : ℚ) :
    (l.map (fun _ => c)).sum = (l.length : ℚ) * c := by
  induction l with
  | nil => simp
  | cons a t ih =>
    simp only [List.map_cons, List.sum_cons, ih, List.length_cons]
    push_cast
    ring

/-- C2: for an existing project with at least one member, calculateReward
returns perMember = pool / memberCount, appends exactly one rewards row per
member with that amount, and the created amounts sum to the full pool. -/
theorem calculateReward_equal_split (db : Db) (data : CalcInput) (project : ProjectRec)
    (hfind : db.projects.find? (fun p => p.id == data.project_id) = some project)
    (hN : 1 ≤ project.project_members.length) :
    (calculateReward db data).2 =
      CalcResult.ok db.nextCalcId
        (data.total_reward_pool / (project.project_members.length : ℚ)) ∧
    (calculateReward db data).1.rewards =
      db.rewards ++ project.project_members.map
        (rewardRowFor db.nextCalcId
          (data.total_reward_pool / (project.project_members.length : ℚ))) ∧
    (project.project_members.map
        (rewardRowFor db.nextCalcId
          (data.total_reward_pool / (project.project_members.length : ℚ)))).length =
      project.project_members.length ∧
    ((project.project_members.map
        (rewardRowFor db.nextCalcId
          (data.total_reward_pool / (project.project_members.length : ℚ)))).map
      (fun r => r.amount)).sum = data.total_reward_pool := by
  have hne : project.project_members.length ≠ 0 := by omega
  have hdiv : (if project.project_members.length = 0 then (1 : ℚ)
      else (project.project_members.length : ℚ)) = (project.project_members.length : ℚ) :=
    if_neg hne
  refine ⟨?_, ?_, List.length_map _ _, ?_⟩
  · simp only [calculateReward, hfind, hdiv]
  · simp only [calculateReward, hfind, hdiv]
  · rw [List.map_map]
    have hcomp : ((fun r : RewardRec => r.amount) ∘
        rewardRowFor db.nextCalcId
          (data.total_reward_pool / (project.project_members.length : ℚ))) =
        fun _ => data.total_reward_pool / (project.project_members.length : ℚ) := rfl
    rw [hcomp, sum_map_const_rat]
    have hcast : ((project.project_members.length : ℚ)) ≠ 0 := Nat.cast_ne_zero.mpr hne
    field_simp

/-- The database and request of the C2 witness: one project with three
members and a pool of 900000. -/
def c2Db : Db :=
  { projects := [{ id := 1, project_members := [⟨10⟩, ⟨11⟩, ⟨12⟩] }]
    reward_calculations := []
    rewards := []
    nextCalcId := 0 }

/-- The request body of the C2 witness. -/
def c2Input : CalcInput :=
  { project_id := 1, reward_policy_id := 5, total_reward_pool := 900000 }

/-- The project row of the C2 witness. -/
def c2Project : ProjectRec := { id := 1, project_members := [⟨10⟩, ⟨11⟩, ⟨12⟩] }

/-- C2 witness: a 900000 pool over 3 members gives 300000 per member and the
three created shares sum to 900000. -/
theorem calculateReward_equal_split_witness :
    (c2Db.projects.find? (fun p => p.id == c2Input.project_id) = some c2Project) ∧
    1 ≤ c2Project.project_members.length ∧
    (calculateReward c2Db c2Input).2 = CalcResult.ok 0 300000 ∧
    ((c2Project.project_members.map
        (rewardRowFor c2Db.nextCalcId
          (c2Input.total_reward_pool / (c2Project.project_members.length : ℚ)))).map
      (fun r => r.amount)).sum = c2Input.total_reward_pool := by
  have h := calculateReward_equal_split c2Db c2Input c2Project rfl
    (by norm_num [c2Project])
  refine ⟨rfl, by norm_num [c2Project], ?_, h.2.2.2⟩
  rw [h.1]
  norm_num [c2Db, c2Input, c2Project]

/-- C9: for an existing project with zero team members, calculateReward does
not divide by zero: the divisor falls back to 1, the result is perMember =
the full pool, a reward_calculations row with status PRELIMINARY is created,
no rewards rows are created, and the created shares sum to 0. -/
theorem calculateReward_zero_members (db : Db) (data : CalcInput) (project : ProjectRec)
    (hfind : db.projects.find? (fun p => p.id == data.project_id) = some project)
    (hzero : project.project_members = []) :
    (calculateReward db data).2 = CalcResult.ok db.nextCalcId data.total_reward_pool ∧
    (calculateReward db data).1.reward_calculations =
      db.reward_calculations ++
        [{ id := db.nextCalcId, project_id := data.project_id,
           reward_policy_id := data.reward_policy_id,
           total_reward_pool := data.total_reward_pool, status := "PRELIMINARY" }] ∧
    (calculateReward db data).1.rewards = db.rewards ∧
    ((((calculateReward db data).1.rewards.drop db.rewards.length).map
      (fun r => r.amount)).sum : ℚ) = 0 := by
  have h2 : (calculateReward db data).1.rewards = db.rewards := by
    simp only [calculateReward, hfind, hzero]
    simp
  refine ⟨?_, ?_, h2, ?_⟩
  · simp only [calculateReward, hfind, hzero]
    simp
  · simp only [calculateReward, hfind, hzero]
  · rw [h2]
    simp

/-- The database of the C9 witness: one project with no members. -/
def c9Db : Db :=
  { projects := [{ id := 7, project_members := [] }]
    reward_calculations := []
    rewards := []
    nextCalcId := 0 }

/-- The request body of the C9 witness. -/
def c9Input : CalcInput :=
  { project_id := 7, reward_policy_id := 2, total_reward_pool := 500000 }

/-- The project row of the C9 witness. -/
def c9Project : ProjectRec := { id := 7, project_members := [] }

/-- C9 witness: a 500000 pool over an empty team returns perMember = 500000,
creates the PRELIMINARY calculation row and creates no rewards rows. -/
theorem calculateReward_zero_members_witness :
    (c9Db.projects.find? (fun p => p.id == c9Input.project_id) = some c9Project) ∧
    c9Project.project_members = [] ∧
    (calculateReward c9Db c9Input).2 = CalcResult.ok 0 500000 ∧
    (calculateReward c9Db c9Input).1.rewards = c9Db.rewards := by
  have h := calculateReward_zero_members c9Db c9Input c9Project rfl rfl
  refine ⟨rfl, rfl, ?_, h.2.2.1⟩
  rw [h.1]
  norm_num [c9Db, c9Input]

/-- C10: when no project matches project_id, calculateReward returns the
error object with message "Project not found" and leaves the database
untouched, and the controller delivers it with HTTP status 200. -/
theorem calculateReward_project_not_found (db : Db) (data : CalcInput)
    (hfind : db.projects.find? (fun p => p.id == data.project_id) = none) :
    calculateReward db data = (db, CalcResult.error "Project not found") ∧
    handleCalculateReward db data = (db, 200, CalcResult.error "Project not found") := by
  have h1 : calculateReward db data = (db, CalcResult.error "Project not found") := by
    simp only [calculateReward, hfind]
  exact ⟨h1, by simp only [handleCalculateReward, h1]⟩

/-- The database of the C10 witness: no projects at all. -/
def c10Db : Db :=
  { projects := [], reward_calculations := [], rewards := [], nextCalcId := 0 }

/-- The request body of the C10 witness: project 99 does not exist. -/
def c10Input : CalcInput :=
  { project_id := 99, reward_policy_id := 1, total_reward_pool := 100 }

/-- C10 witness: requesting a calculation for the unknown project 99 returns
the error object unchanged-state pair and a 200 response. -/
theorem calculateReward_project_not_found_witness :
    (c10Db.projects.find? (fun p => p.id == c10Input.project_id) = none) ∧
    calculateReward c10Db c10Input = (c10Db, CalcResult.error "Project not found") ∧
    handleCalculateReward c10Db c10Input =
      (c10Db, 200, CalcResult.error "Project not found") := by
  have h := calculateReward_project_not_found c10Db c10Input rfl
  exact ⟨rfl, h.1, h.2⟩

/-- C5: if the reward loop stops after j = k - 1 of the N member rows
(the k-th create throws, 1 ≤ k < N), the database keeps the new
reward_calculations row and the k - 1 created rewards rows: nothing is
rolled back and fewer than N rewards rows exist for the calculation. -/
theorem calculateRewardUpTo_keeps_committed_rows (db : Db) (data : CalcInput)
    (project : ProjectRec) (N k : ℕ)
    (hfind : db.projects.find? (fun p => p.id == data.project_id) = some project)
    (hN : project.project_members.length = N)
    (hk1 : 1 ≤ k) (hkN : k < N) :
    (calculateRewardUpTo db data (k - 1)).reward_calculations =
      db.reward_calculations ++
        [{ id := db.nextCalcId, project_id := data.project_id,
           reward_policy_id := data.reward_policy_id,
           total_reward_pool := data.total_reward_pool, status := "PRELIMINARY" }] ∧
    (calculateRewardUpTo db data (k - 1)).rewards =
      db.rewards ++ (project.project_members.take (k - 1)).map
        (rewardRowFor db.nextCalcId
          (data.total_reward_pool / (project.project_members.length : ℚ))) ∧
    (calculateRewardUpTo db data (k - 1)).rewards.length =
      db.rewards.length + (k - 1) ∧
    k - 1 < N := by
  have hne : project.project_members.length ≠ 0 := by omega
  have hdiv : (if project.project_members.length = 0 then (1 : ℚ)
      else (project.project_members.length : ℚ)) = (project.project_members.length : ℚ) :=
    if_neg hne
  refine ⟨?_, ?_, ?_, by omega⟩
  · simp only [calculateRewardUpTo, hfind]
  · simp only [calculateRewardUpTo, hfind, hdiv]
  · simp only [calculateRewardUpTo, hfind, List.length_append, List.length_map,
      List.length_take]
    omega

/-- The database of the C5 witness: one project with three members. -/
def c5Db : Db :=
  { projects := [{ id := 3, project_members := [⟨21⟩, ⟨22⟩, ⟨23⟩] }]
    reward_calculations := []
    rewards := []
    nextCalcId := 0 }

/-- The request body of the C5 witness. -/
def c5Input : CalcInput :=
  { project_id := 3, reward_policy_id := 4, total_reward_pool := 600000 }

/-- The project row of the C5 witness. -/
def c5Project : ProjectRec := { id := 3, project_members := [⟨21⟩, ⟨22⟩, ⟨23⟩] }

/-- C5 witness: with 3 members, if the 2nd rewards create throws, the state
keeps the calculation row and exactly 1 rewards row (fewer than 3). -/
theorem calculateRewardUpTo_keeps_committed_rows_witness :
    (c5Db.projects.find? (fun p => p.id == c5Input.project_id) = some c5Project) ∧
    c5Project.project_members.length = 3 ∧ 1 ≤ 2 ∧ 2 < 3 ∧
    (calculateRewardUpTo c5Db c5Input 1).rewards.length = c5Db.rewards.length + 1 ∧
    (calculateRewardUpTo c5Db c5Input 1).reward_calculations =
      c5Db.reward_calculations ++
        [{ id := 0, project_id := 3, reward_policy_id := 4,
           total_reward_pool := 600000, status := "PRELIMINARY" }] := by
  have h := calculateRewardUpTo_keeps_committed_rows c5Db c5Input c5Project 3 2 rfl rfl
    (by norm_num) (by norm_num)
  exact ⟨rfl, rfl, by norm_num, by norm_num, h.2.2.1, h.1⟩

/-- sortDesc permutes its input. -/
theorem sortDesc_perm {α : Type} (key : α → ℚ) (l : List α) :
    (sortDesc key l).Perm l :=
  List.perm_insertionSort _ l

/-- sortDesc sorts into weakly descending key order. -/
theorem sortDesc_sorted {α : Type} (key : α → ℚ) (l : List α) :
    (sortDesc key l).Pairwise (fun a b => key b ≤ key a) := by
  haveI : IsTotal α (fun a b => key b ≤ key a) :=
    ⟨fun a b => le_total (key b) (key a)⟩
  haveI : IsTrans α (fun a b => key b ≤ key a) :=
    ⟨fun a b c h1 h2 => le_trans h2 h1⟩
  exact List.sorted_insertionSort _ l

/-- The head of a descending sort of a non-empty list is an element of the
list whose key is maximal. -/
theorem sortDesc_head_max {α : Type} (key : α → ℚ) (l : List α) (hl : l ≠ []) :
    ∃ r, (sortDesc key l).head? = some r ∧ r ∈ l ∧ ∀ e ∈ l, key e ≤ key r := by
  have hperm : (sortDesc key l).Perm l := sortDesc_perm key l
  have hsorted := sortDesc_sorted key l
  cases hs : sortDesc key l with
  | nil =>
    rw [hs] at hperm
    exact absurd hperm.symm.eq_nil hl
  | cons r ts =>
    refine ⟨r, rfl, ?_, ?_⟩
    · have hmem : r ∈ sortDesc key l := by
        rw [hs]; exact List.mem_cons_self r ts
      exact hperm.subset hmem
    · intro e he
      have he' : e ∈ sortDesc key l := hperm.mem_iff.mpr he
      rw [hs] at he' hsorted
      rcases List.mem_cons.mp he' with rfl | het
      · exact le_refl _
      · exact (List.pairwise_cons.mp hsorted).1 e het

/-- C8: selectHighPerformanceTeam returns the first min(teamSize, number of
available candidates) elements of the available candidates sorted by weakly
descending average overall evaluation score; the returned list is sorted
descending, together with the dropped suffix it is a permutation of the
available candidates, every returned candidate scores at least every
dropped one, and a candidate with no evaluations scores 6. -/
theorem selectHighPerformanceTeam_sorted_take (userCapabilities : List Member)
    (teamSize : ℕ) :
    (selectHighPerformanceTeam userCapabilities teamSize).length =
      min teamSize (userCapabilities.filter (fun u => u.isAvailable)).length ∧
    (selectHighPerformanceTeam userCapabilities teamSize).Pairwise
      (fun a b => memberScore b ≤ memberScore a) ∧
    (selectHighPerformanceTeam userCapabilities teamSize ++
        (sortDesc memberScore
          (userCapabilities.filter (fun u => u.isAvailable))).drop teamSize).Perm
      (userCapabilities.filter (fun u => u.isAvailable)) ∧
    (∀ x ∈ selectHighPerformanceTeam userCapabilities teamSize,
      ∀ y ∈ (sortDesc memberScore
          (userCapabilities.filter (fun u => u.isAvailable))).drop teamSize,
        memberScore y ≤ memberScore x) ∧
    ∀ u : UserInfo, ∀ avail : Bool, ∀ bon : List BonusRec,
      memberScore ⟨u, avail, [], bon⟩ = 6 := by
  have hsel : selectHighPerformanceTeam userCapabilities teamSize =
      (sortDesc memberScore (userCapabilities.filter (fun u => u.isAvailable))).take
        teamSize := rfl
  have hperm := sortDesc_perm memberScore (userCapabilities.filter (fun u => u.isAvailable))
  have hsorted := sortDesc_sorted memberScore (userCapabilities.filter (fun u => u.isAvailable))
  have hsplit : (sortDesc memberScore
        (userCapabilities.filter (fun u => u.isAvailable))).take teamSize ++
      (sortDesc memberScore
        (userCapabilities.filter (fun u => u.isAvailable))).drop teamSize =
      sortDesc memberScore (userCapabilities.filter (fun u => u.isAvailable)) :=
    List.take_append_drop teamSize _
  refine ⟨?_, ?_, ?_, ?_, ?_⟩
  · rw [hsel, List.length_take, hperm.length_eq]
  · rw [hsel]
    exact hsorted.sublist (List.take_sublist _ _)
  · rw [hsel, hsplit]
    exact hperm
  · intro x hx y hy
    rw [hsel] at hx
    have hps : ((sortDesc memberScore
          (userCapabilities.filter (fun u => u.isAvailable))).take teamSize ++
        (sortDesc memberScore
          (userCapabilities.filter (fun u => u.isAvailable))).drop teamSize).Pairwise
        (fun a b => memberScore b ≤ memberScore a) := by
      rw [hsplit]; exact hsorted
    exact (List.pairwise_append.mp hps).2.2 x hx y hy
  · intro u avail bon
    simp [memberScore]

/-- C7: for a non-empty team, calculateTeamScore is
0.5 * average member performance (default 6 per member with no evaluations)
+ 0.3 * average member bonus + 0.2 * diversity, with diversity =
0.6 * distinct departments / size + 0.4 * distinct positions / size; and
recommendedTeam is an entry among the three strategies whose score,
computed by calculateTeamScore on its team, is maximal. -/
theorem calculateTeamScore_formula_and_recommendation
    (team balancedTeam highPerformanceTeam costEffectiveTeam : List Member)
    (hteam : team ≠ []) :
    calculateTeamScore team =
      0.5 * ((team.map memberScore).sum / (team.length : ℚ)) +
      0.3 * ((team.map memberBonus).sum / (team.length : ℚ)) +
      0.2 * (0.6 * (((team.map (fun m => m.user.department)).dedup.length : ℚ) /
               (team.length : ℚ)) +
             0.4 * (((team.map (fun m => m.user.position)).dedup.length : ℚ) /
               (team.length : ℚ))) ∧
    ∃ r : StratEntry,
      recommendedTeam balancedTeam highPerformanceTeam costEffectiveTeam = some r ∧
      r ∈ strategyEntries balancedTeam highPerformanceTeam costEffectiveTeam ∧
      r.score = calculateTeamScore r.team ∧
      ∀ e ∈ strategyEntries balancedTeam highPerformanceTeam costEffectiveTeam,
        e.score ≤ r.score := by
  have hlen : team.length ≠ 0 := fun hh => hteam (List.length_eq_zero.mp hh)
  constructor
  · unfold calculateTeamScore calculateDiversityScore
    rw [if_neg hlen, if_neg hlen]
    ring
  · obtain ⟨r, hr1, hr2, hr3⟩ := sortDesc_head_max (fun e => e.score)
      (strategyEntries balancedTeam highPerformanceTeam costEffectiveTeam)
      (by simp [strategyEntries])
    refine ⟨r, hr1, hr2, ?_, hr3⟩
    simp only [strategyEntries, List.mem_cons, List.not_mem_nil, or_false] at hr2
    rcases hr2 with rfl | rfl | rfl <;> rfl

/-- The single candidate of the C7 witness: available, no evaluations, no
bonuses. -/
def c7Member : Member :=
  { user := { id := 1, department := "eng", position := "dev" }
    isAvailable := true
    receivedEvaluations := []
    bonuses := [] }

/-- C7 witness: on the one-member team of c7Member, the formula evaluates to
0.5*6 + 0.3*0 + 0.2*(0.6+0.4) = 3.2, and a maximal strategy entry is
recommended. -/
theorem calculateTeamScore_formula_and_recommendation_witness :
    ([c7Member] ≠ ([] : List Member)) ∧
    calculateTeamScore [c7Member] =
      0.5 * 6 + 0.3 * 0 + 0.2 * (0.6 * 1 + 0.4 * 1) ∧
    ∃ r : StratEntry,
      recommendedTeam [c7Member] [c7Member] [c7Member] = some r ∧
      r.score = calculateTeamScore r.team ∧
      ∀ e ∈ strategyEntries [c7Member] [c7Member] [c7Member], e.score ≤ r.score := by
  have h := calculateTeamScore_formula_and_recommendation
    [c7Member] [c7Member] [c7Member] [c7Member] (by simp)
  refine ⟨by simp, ?_, ?_⟩
  · rw [h.1]
    norm_num [c7Member, memberScore, memberBonus, List.dedup]
  · obtain ⟨r, hr1, _, hr3, hr4⟩ := h.2
    exact ⟨r, hr1, hr3, hr4⟩

end CMS
